import Mathlib

/-!
Shallow embedding of the umbrella-sampling workflow scripts
(`windows.py`, `min_heat_equi_pull.py`, `us_check.py`, `check_sampling.py`).

Real numbers appearing in the scripts are modelled as exact rationals (`ℚ`);
text files are modelled as `List Char`.
-/

/-! ## windows.py -/

/-- `np.linspace(a, b, n)` with `endpoint=True`, as used at
`windows.py:97` (`np.linspace(min_com, max_com, n_windows)`):
`n` evenly spaced samples over `[a, b]`, both endpoints included;
`n = 1` yields `[a]`, `n = 0` yields `[]`. -/
def linspace (a b : ℚ) (n : ℕ) : List ℚ :=
  if n = 0 then []
  else if n = 1 then [a]
  else (List.range n).map fun i : ℕ => a + (i : ℚ) * ((b - a) / ((n : ℚ) - 1))

/-- `np.argmin` over a list of rationals (`windows.py:102`):
the index of the first occurrence of the minimum value
(numpy documents that ties are resolved to the first occurrence). -/
def argminD : List ℚ → ℕ
  | [] => 0
  | x :: xs =>
    match xs with
    | [] => 0
    | _ :: _ =>
      let j := argminD xs
      if xs.getD j 0 < x then j + 1 else 0

/-- `np.argmin(np.abs(com_values - center))` (`windows.py:102`): frame index
whose measured COM value is closest to the window center `t`. -/
def npArgminAbs (t : ℚ) (com : List ℚ) : ℕ :=
  argminD (com.map fun v => |v - t|)

/-- `windows.py:83-87`: if the trajectory frame count differs from the length
of the loaded CV series, take the minimum of the two lengths and truncate the
CV series to it; otherwise the series is used unchanged. -/
def truncateCV (nFrames : ℕ) (com : List ℚ) : List ℚ :=
  if nFrames ≠ com.length then com.take (min nFrames com.length) else com

/-- `windows.py:94-97` wrapped with numpy's input validation: `np.linspace`
raises `ValueError` for a negative sample count; the bounds are the hardcoded
`min_com = 3.0`, `max_com = 33.0`.  The script performs no validation of its
own (there is no `ConfigurationError` anywhere in the repository). -/
def windowCentersChecked (n : ℤ) : Except String (List ℚ) :=
  if n < 0 then Except.error "ValueError: Number of samples must be non-negative"
  else Except.ok (linspace 3 33 n.toNat)

/-- Environment flags abstracting the external outcomes consulted by
`prepare_windows` (`windows.py:13-191`): whether the process already sits in
the system directory, whether the system directory exists (relative / under
`BDP_DIR`), and whether each subsequent step succeeds. -/
structure WinEnv : Type where
  alreadyInSystem : Bool
  relDirExists : Bool
  bdpDirExists : Bool
  filesOk : Bool
  loadOk : Bool
  ncOk : Bool
  cpptrajOk : Bool

/-- Working-directory tracking of `prepare_windows`: mirrors every
`os.chdir` and every `return` path of `windows.py:13-191`.
`origDir` is the directory current at entry (`orig_dir = os.getcwd()`,
line 26), `sysDir` the system directory changed into (lines 41/49).
Returns the working directory at return time together with whether the
call returned a (possibly empty) command list normally (`true`) or via an
early error return (`false`). -/
def prepareWindowsCwd {D : Type} (origDir sysDir : D) (hasSystemName : Bool)
    (env : WinEnv) : D × Bool :=
  -- lines 30-52: optional chdir into the system directory
  let step1 : Option D :=
    if hasSystemName then
      if env.alreadyInSystem then some origDir
      else if env.relDirExists then some sysDir
      else if env.bdpDirExists then some sysDir
      else none                    -- line 52: `return []` (no chdir happened)
    else some origDir
  match step1 with
  | none => (origDir, false)
  | some cwd =>
    if !env.filesOk then           -- lines 61-65
      (if hasSystemName then origDir else cwd, false)
    else if !env.loadOk then       -- lines 73-77
      (if hasSystemName then origDir else cwd, false)
    else if !env.ncOk then         -- lines 88-92
      (if hasSystemName then origDir else cwd, false)
    else if !env.cpptrajOk then    -- lines 122-131
      (if hasSystemName then origDir else cwd, false)
    else                           -- lines 187-191: normal return
      (if hasSystemName then origDir else cwd, true)

/-! ### Lemmas about `argminD` -/

theorem argminD_singleton (x : ℚ) : argminD [x] = 0 := rfl

theorem argminD_cons_cons (x y : ℚ) (ys : List ℚ) :
    argminD (x :: y :: ys) =
      if (y :: ys).getD (argminD (y :: ys)) 0 < x then argminD (y :: ys) + 1
      else 0 := rfl

theorem argminD_spec (l : List ℚ) (hl : l ≠ []) :
    argminD l < l.length ∧
    (∀ j, j < l.length → l.getD (argminD l) 0 ≤ l.getD j 0) ∧
    (∀ j, j < argminD l → l.getD (argminD l) 0 < l.getD j 0) := by
  induction l with
  | nil => cases hl rfl
  | cons x xs ih =>
    cases xs with
    | nil =>
      refine ⟨by simp [argminD_singleton], ?_, ?_⟩
      · intro j hj
        have hj0 : j = 0 := Nat.lt_one_iff.mp (by simpa using hj)
        simp [argminD_singleton, hj0]
      · intro j hj
        simp [argminD_singleton] at hj
    | cons y ys =>
      obtain ⟨ih1, ih2, ih3⟩ := ih (by simp)
      by_cases hlt : (y :: ys).getD (argminD (y :: ys)) 0 < x
      · have hval : argminD (x :: y :: ys) = argminD (y :: ys) + 1 := by
          rw [argminD_cons_cons, if_pos hlt]
        refine ⟨?_, ?_, ?_⟩
        · simpa [hval] using Nat.succ_lt_succ ih1
        · intro j hj
          rcases j with _ | j
          · simpa [hval] using le_of_lt hlt
          · simp only [hval, List.getD_cons_succ]
            exact ih2 j (Nat.lt_of_succ_lt_succ hj)
        · intro j hj
          rcases j with _ | j
          · simpa [hval] using hlt
          · rw [hval] at hj
            simp only [hval, List.getD_cons_succ]
            exact ih3 j (Nat.lt_of_succ_lt_succ hj)
      · have hval : argminD (x :: y :: ys) = 0 := by
          rw [argminD_cons_cons, if_neg hlt]
        push_neg at hlt
        refine ⟨by simp [hval], ?_, ?_⟩
        · intro j hj
          rcases j with _ | j
          · simp [hval]
          · simp only [hval, List.getD_cons_zero, List.getD_cons_succ]
            exact le_trans hlt (ih2 j (Nat.lt_of_succ_lt_succ hj))
        · intro j hj
          simp [hval] at hj

/-! ### Lemmas about `linspace` -/

theorem linspace_length (a b : ℚ) (n : ℕ) : (linspace a b n).length = n := by
  unfold linspace
  by_cases h0 : n = 0
  · simp [h0]
  · by_cases h1 : n = 1
    · rw [if_neg h0, if_pos h1, h1]
      rfl
    · rw [if_neg h0, if_neg h1, List.length_map, List.length_range]

theorem linspace_getD (a b : ℚ) (n : ℕ) (hn : 2 ≤ n) (i : ℕ) (hi : i < n) :
    (linspace a b n).getD i 0 = a + i * ((b - a) / ((n : ℚ) - 1)) := by
  have hrepr : linspace a b n =
      (List.range n).map fun i : ℕ => a + (i : ℚ) * ((b - a) / ((n : ℚ) - 1)) := by
    unfold linspace
    rw [if_neg (by omega), if_neg (by omega)]
  rw [hrepr, List.getD_eq_getElem _ _
    (by rw [List.length_map, List.length_range]; exact hi)]
  rw [List.getElem_map, List.getElem_range]

/-- C3: the window centers `np.linspace(min, max, n)` (windows.py:97) are `n`
evenly spaced values over `[min, max]`: both endpoints are included (for
`n ≥ 2`), consecutive differences all equal `(max-min)/(n-1)`, the sequence is
strictly increasing, and `n = 1` yields the single value `min` with no
division by zero. -/
theorem linspace_evenly_spaced (a b : ℚ) (n : ℕ) (hab : a < b) (hn : 1 ≤ n) :
    (linspace a b n).length = n ∧
    (n = 1 → linspace a b n = [a]) ∧
    (2 ≤ n → (linspace a b n).getD 0 0 = a ∧ (linspace a b n).getD (n - 1) 0 = b) ∧
    (∀ i, i + 1 < n →
      (linspace a b n).getD (i + 1) 0 - (linspace a b n).getD i 0 =
        (b - a) / ((n : ℚ) - 1)) ∧
    (∀ i j, i < j → j < n →
      (linspace a b n).getD i 0 < (linspace a b n).getD j 0) := by
  refine ⟨linspace_length a b n, ?_, ?_, ?_, ?_⟩
  · intro h1
    simp [linspace, h1]
  · intro h2
    have hne : ((n : ℚ) - 1) ≠ 0 := by
      have : (2 : ℚ) ≤ (n : ℚ) := by exact_mod_cast h2
      linarith
    constructor
    · rw [linspace_getD a b n h2 0 (by omega)]
      simp
    · rw [linspace_getD a b n h2 (n - 1) (by omega)]
      have hcast : ((n - 1 : ℕ) : ℚ) = (n : ℚ) - 1 := by
        push_cast [Nat.cast_sub (by omega : 1 ≤ n)]
        ring
      rw [hcast]
      field_simp
  · intro i hi
    have h2 : 2 ≤ n := by omega
    rw [linspace_getD a b n h2 (i + 1) hi, linspace_getD a b n h2 i (by omega)]
    push_cast
    ring
  · intro i j hij hj
    have h2 : 2 ≤ n := by omega
    rw [linspace_getD a b n h2 i (by omega), linspace_getD a b n h2 j hj]
    have hstep : 0 < (b - a) / ((n : ℚ) - 1) := by
      apply div_pos (by linarith)
      have : (2 : ℚ) ≤ (n : ℚ) := by exact_mod_cast h2
      linarith
    have hcast : (i : ℚ) < (j : ℚ) := by exact_mod_cast hij
    have := mul_lt_mul_of_pos_right hcast hstep
    linarith

theorem linspace_evenly_spaced_witness :
    ((3 : ℚ) < 33 ∧ 1 ≤ 30) ∧
    ((linspace 3 33 30).length = 30 ∧
    (30 = 1 → linspace 3 33 30 = [3]) ∧
    (2 ≤ 30 → (linspace 3 33 30).getD 0 0 = 3 ∧
      (linspace 3 33 30).getD (30 - 1) 0 = 33) ∧
    (∀ i, i + 1 < 30 →
      (linspace 3 33 30).getD (i + 1) 0 - (linspace 3 33 30).getD i 0 =
        ((33 : ℚ) - 3) / ((30 : ℚ) - 1)) ∧
    (∀ i j, i < j → j < 30 →
      (linspace 3 33 30).getD i 0 < (linspace 3 33 30).getD j 0)) :=
  ⟨⟨by norm_num, by norm_num⟩,
   linspace_evenly_spaced 3 33 30 (by norm_num) (by norm_num)⟩

/-- C2: the frame selected for target `t` (windows.py:100-103,
`np.argmin(np.abs(com_values - center))`) attains the minimal absolute
deviation `|measured - t|` over all frames, and every strictly earlier frame
has strictly larger deviation (ties resolve to the lowest frame index). -/
theorem frame_selection_argmin (com : List ℚ) (t : ℚ) (hne : com ≠ []) :
    npArgminAbs t com < com.length ∧
    (∀ j, j < com.length →
      |com.getD (npArgminAbs t com) 0 - t| ≤ |com.getD j 0 - t|) ∧
    (∀ j, j < npArgminAbs t com →
      |com.getD (npArgminAbs t com) 0 - t| < |com.getD j 0 - t|) := by
  have hmapne : com.map (fun v => |v - t|) ≠ [] := by
    simpa using hne
  obtain ⟨h1, h2, h3⟩ := argminD_spec (com.map fun v => |v - t|) hmapne
  have hlen : (com.map fun v => |v - t|).length = com.length := by simp
  have hget : ∀ j, j < com.length →
      (com.map fun v => |v - t|).getD j 0 = |com.getD j 0 - t| := by
    intro j hj
    rw [List.getD_eq_getElem _ _ (by simpa using hj),
        List.getD_eq_getElem _ _ hj]
    simp
  have hidx : npArgminAbs t com < com.length := by
    simpa [npArgminAbs, hlen] using h1
  have hdef : argminD (com.map fun v => |v - t|) = npArgminAbs t com := rfl
  refine ⟨hidx, ?_, ?_⟩
  · intro j hj
    have hle := h2 j (by rw [hlen]; exact hj)
    rw [hdef, hget _ hidx, hget _ hj] at hle
    exact hle
  · intro j hj
    rw [hdef] at h3
    have hjlt : j < com.length := lt_trans hj hidx
    have hlt := h3 j hj
    rw [hget _ hidx, hget _ hjlt] at hlt
    exact hlt

theorem frame_selection_argmin_witness :
    ([(3 : ℚ), 5, 4, 5] ≠ [] ∧
      npArgminAbs (9/2) [(3 : ℚ), 5, 4, 5] < 4) ∧
    (∀ j, j < [(3 : ℚ), 5, 4, 5].length →
      |[(3 : ℚ), 5, 4, 5].getD (npArgminAbs (9/2) [(3 : ℚ), 5, 4, 5]) 0 - 9/2| ≤
        |[(3 : ℚ), 5, 4, 5].getD j 0 - 9/2|) :=
  ⟨⟨by decide, (frame_selection_argmin [(3 : ℚ), 5, 4, 5] (9/2) (by decide)).1⟩,
   (frame_selection_argmin [(3 : ℚ), 5, 4, 5] (9/2) (by decide)).2.1⟩

/-- C6: when the trajectory frame count differs from the CV series length
(windows.py:83-87), the shorter of the two lengths is used and the CV series
is truncated to a prefix of that length; when they agree the series is
unchanged. The operation is total (it never aborts). -/
theorem cv_truncation (nFrames : ℕ) (com : List ℚ) :
    (truncateCV nFrames com).length = min nFrames com.length ∧
    (truncateCV nFrames com) <+: com ∧
    (nFrames = com.length → truncateCV nFrames com = com) := by
  unfold truncateCV
  by_cases h : nFrames = com.length
  · simp [h]
  · refine ⟨?_, ?_, fun he => absurd he h⟩
    · rw [if_pos h, List.length_take]
      omega
    · rw [if_pos h]
      exact List.take_prefix _ _

/-- C5 counterexample: for `n_windows = 0` (which satisfies `n_windows < 1`)
the window-center computation of `prepare_windows` (windows.py:94-97)
succeeds with an empty list of centers; no `ConfigurationError` (or any
error) is reported, refuting the claim that every call with `n_windows < 1`
reports a configuration error. -/
theorem no_configuration_error_counterexample :
    windowCentersChecked 0 = Except.ok [] ∧
    ∀ msg, windowCentersChecked 0 ≠ Except.error msg := by
  constructor
  · rfl
  · intro msg h
    rw [show windowCentersChecked 0 = Except.ok [] from rfl] at h
    cases h

/-- C5 amended: `prepare_windows` performs no window-count or range
validation of its own and never raises a `ConfigurationError`: the CV range
is hardcoded to `min_com = 3.0 < max_com = 33.0` (never empty or inverted);
`n_windows = 0` proceeds and produces an empty center list; a negative
`n_windows` surfaces only as numpy's uncaught `ValueError` from
`np.linspace` (windows.py:97). -/
theorem no_configuration_error (n : ℤ) :
    (3 : ℚ) < 33 ∧
    (0 ≤ n → windowCentersChecked n = Except.ok (linspace 3 33 n.toNat)) ∧
    (n < 0 → windowCentersChecked n =
      Except.error "ValueError: Number of samples must be non-negative") ∧
    windowCentersChecked 0 = Except.ok [] := by
  refine ⟨by norm_num, ?_, ?_, rfl⟩
  · intro hn
    unfold windowCentersChecked
    rw [if_neg (by omega)]
  · intro hn
    unfold windowCentersChecked
    rw [if_pos hn]

theorem no_configuration_error_witness :
    ((0 : ℤ) ≤ 5 ∧
      windowCentersChecked 5 = Except.ok (linspace 3 33 (5 : ℤ).toNat)) ∧
    ((-1 : ℤ) < 0 ∧
      windowCentersChecked (-1) =
        Except.error "ValueError: Number of samples must be non-negative") :=
  ⟨⟨by norm_num, (no_configuration_error 5).2.1 (by norm_num)⟩,
   ⟨by norm_num, (no_configuration_error (-1)).2.2.1 (by norm_num)⟩⟩

/-- C10: on every return path of `prepare_windows` — the
system-directory-not-found return (windows.py:52, before any `chdir`), each
early-error return (lines 61-65, 73-77, 88-92, 122-131) and the normal
return (lines 187-191) — the working directory at return time equals the
directory that was current at entry, for every combination of external
outcomes, with or without a `system_name` argument. -/
theorem cwd_restored_on_all_paths {D : Type} (origDir sysDir : D)
    (hasSystemName : Bool) (env : WinEnv) :
    (prepareWindowsCwd origDir sysDir hasSystemName env).1 = origDir := by
  obtain ⟨a, b, c, d, e, f, g⟩ := env
  cases hasSystemName <;> cases a <;> cases b <;> cases c <;> cases d <;>
    cases e <;> cases f <;> cases g <;> rfl

/-! ## Text utilities: Python string semantics over `List Char` -/

/-- Substring test: `containsSub l p = true` iff the pattern `p` occurs as a
contiguous substring of `l` (Python `pat in s`; `s.count(pat) > 0`). -/
def containsSub (l p : List Char) : Bool :=
  (List.range (l.length + 1)).any fun i => p.isPrefixOf (l.drop i)

/-- Python `str.replace(pat, v)` for a non-empty pattern: scan left to right
and replace every non-overlapping occurrence, continuing after the
replacement. -/
def replaceL (p v : List Char) : List Char → List Char
  | [] => []
  | c :: t =>
    if p.isPrefixOf (c :: t) then v ++ replaceL p v (t.drop (p.length - 1))
    else c :: replaceL p v t
termination_by l => l.length
decreasing_by
  · simp only [List.length_cons, List.length_drop]
    omega
  · simp only [List.length_cons]
    omega

/-- Split a character list at newline characters (Python
`s.split("\n")`-style; a trailing newline yields a trailing empty line). -/
def splitLines : List Char → List (List Char)
  | [] => [[]]
  | c :: t =>
    if c = '\n' then [] :: splitLines t
    else
      match splitLines t with
      | [] => [[c]]
      | l :: ls => (c :: l) :: ls

/-- Join lines, terminating each (including the last) with a newline.
`unlines [l₀, …, lₖ]` is the text `l₀\nl₁\n…lₖ\n`. -/
def unlines : List (List Char) → List Char
  | [] => []
  | l :: ls => l ++ '\n' :: unlines ls

/-- The lines of `text` that carry the field whose `key=` marker the line
starts with (e.g. key `['r','2','=']`). -/
def fieldLines (key text : List Char) : List (List Char) :=
  (splitLines text).filter fun l => key.isPrefixOf l

/-- The placeholder token `dishere` written into the production restraint
template (min_heat_equi_pull.py:375-376) and substituted per window
(windows.py:153). -/
def dishereL : List Char := ['d', 'i', 's', 'h', 'e', 'r', 'e']

theorem replaceL_nil (p v : List Char) : replaceL p v [] = [] := by
  simp [replaceL]

theorem replaceL_cons (p v : List Char) (c : Char) (t : List Char) :
    replaceL p v (c :: t) =
      if p.isPrefixOf (c :: t) then v ++ replaceL p v (t.drop (p.length - 1))
      else c :: replaceL p v t := by
  rw [replaceL]

theorem not_prefix_at (p : List Char) (m : ℕ) (ch : Char)
    (hm : p[m]? = some ch) (a rest : List Char)
    (ha : ch ∉ a) (hr : ch ∉ rest.take m) :
    ∀ i, i < a.length → ¬ p <+: (a ++ rest).drop i := by
  intro i hi hpre
  obtain ⟨s, hs⟩ := hpre
  have hmlen : m < p.length := List.getElem?_eq_some.mp hm |>.1
  have hidx : (a ++ rest)[i + m]? = some ch := by
    have h1 : ((a ++ rest).drop i)[m]? = (a ++ rest)[i + m]? := by
      rw [List.getElem?_drop]
    rw [← h1, ← hs, List.getElem?_append_left hmlen, hm]
  by_cases hcase : i + m < a.length
  · rw [List.getElem?_append_left hcase] at hidx
    exact ha (List.getElem?_mem hidx)
  · push_neg at hcase
    rw [List.getElem?_append_right hcase] at hidx
    have hsmall : i + m - a.length < m := by omega
    have htake : (rest.take m)[i + m - a.length]? = some ch := by
      rw [List.getElem?_take_of_lt hsmall]
      exact hidx
    exact hr (List.getElem?_mem htake)

theorem replaceL_append_of_no_occ (p v a rest : List Char)
    (h : ∀ i, i < a.length → ¬ p <+: (a ++ rest).drop i) :
    replaceL p v (a ++ rest) = a ++ replaceL p v rest := by
  induction a with
  | nil => simp
  | cons c a' ih =>
    have h0 : ¬ p <+: (c :: (a' ++ rest)) := by
      have := h 0 (by simp)
      simpa using this
    have hbool : p.isPrefixOf (c :: (a' ++ rest)) = false := by
      rw [← Bool.not_eq_true]
      intro hb
      exact h0 (List.isPrefixOf_iff_prefix.mp hb)
    have harg : ∀ i, i < a'.length → ¬ p <+: (a' ++ rest).drop i := by
      intro i hi
      have := h (i + 1) (by simpa using Nat.succ_lt_succ hi)
      simpa using this
    rw [List.cons_append, replaceL_cons, hbool]
    simp only [Bool.false_eq_true, if_false]
    rw [ih harg]
    rfl

theorem replaceL_at_occ (p v rest : List Char) (hp : p ≠ []) :
    replaceL p v (p ++ rest) = v ++ replaceL p v rest := by
  cases p with
  | nil => cases hp rfl
  | cons c pt =>
    have hpre : (c :: pt).isPrefixOf ((c :: pt) ++ rest) = true :=
      List.isPrefixOf_iff_prefix.mpr ⟨rest, rfl⟩
    rw [List.cons_append, replaceL_cons]
    rw [show (c :: (pt ++ rest)) = (c :: pt) ++ rest from rfl, hpre]
    simp only [if_true, List.length_cons, Nat.add_sub_cancel]
    rw [List.drop_left]

theorem replaceL_of_no_occ (p v a : List Char)
    (h : ∀ i, i < a.length → ¬ p <+: a.drop i) :
    replaceL p v a = a := by
  have := replaceL_append_of_no_occ p v a [] (by simpa using h)
  simpa [replaceL_nil] using this

theorem no_occ_dishere (a rest : List Char)
    (ha : 'h' ∉ a) (hr : 'h' ∉ rest.take 3) :
    ∀ i, i < a.length → ¬ dishereL <+: (a ++ rest).drop i :=
  not_prefix_at dishereL 3 'h' rfl a rest ha hr

theorem containsSub_eq_false (l p : List Char) (ch : Char)
    (hch : ch ∈ p) (hl : ch ∉ l) : containsSub l p = false := by
  rw [containsSub, List.any_eq_false]
  intro i _
  rw [Bool.not_eq_true, ← Bool.not_eq_true]
  intro hb
  have hpre := List.isPrefixOf_iff_prefix.mp hb
  exact hl (List.drop_subset i l (hpre.subset hch))

theorem containsSub_append_self (a p b : List Char) :
    containsSub (a ++ (p ++ b)) p = true := by
  rw [containsSub, List.any_eq_true]
  refine ⟨a.length, List.mem_range.mpr ?_, ?_⟩
  · simp only [List.length_append]
    omega
  · rw [List.drop_left]
    exact List.isPrefixOf_iff_prefix.mpr ⟨b, rfl⟩

theorem splitLines_ne_nil (cs : List Char) : splitLines cs ≠ [] := by
  induction cs with
  | nil => simp [splitLines]
  | cons c t ih =>
    rw [splitLines]
    by_cases h : c = '\n'
    · simp [h]
    · rw [if_neg h]
      cases hsp : splitLines t with
      | nil => simp
      | cons l ls => simp

theorem splitLines_cons_nl (t : List Char) :
    splitLines ('\n' :: t) = [] :: splitLines t := by
  rw [splitLines, if_pos rfl]

theorem splitLines_cons_ne (c : Char) (t : List Char) (hc : c ≠ '\n')
    (l : List Char) (ls : List (List Char)) (h : splitLines t = l :: ls) :
    splitLines (c :: t) = (c :: l) :: ls := by
  rw [splitLines, if_neg hc, h]

theorem splitLines_append_line (a b : List Char) (ha : '\n' ∉ a)
    (l : List Char) (ls : List (List Char)) (h : splitLines b = l :: ls) :
    splitLines (a ++ b) = (a ++ l) :: ls := by
  induction a with
  | nil => simpa using h
  | cons c a' ih =>
    have hc : c ≠ '\n' := fun he => ha (he ▸ List.mem_cons_self c a')
    have ha' : '\n' ∉ a' := fun hm => ha (List.mem_cons_of_mem c hm)
    rw [List.cons_append, List.cons_append]
    exact splitLines_cons_ne c (a' ++ b) hc (a' ++ l) ls (ih ha')

theorem splitLines_unlines (L : List (List Char))
    (h : ∀ l ∈ L, '\n' ∉ l) :
    splitLines (unlines L) = L ++ [[]] := by
  induction L with
  | nil => simp [unlines, splitLines]
  | cons l ls ih =>
    have hl : '\n' ∉ l := h l (List.mem_cons_self l ls)
    have hls : ∀ x ∈ ls, '\n' ∉ x := fun x hx => h x (List.mem_cons_of_mem l hx)
    rw [unlines]
    have hrest : splitLines ('\n' :: unlines ls) = [] :: (ls ++ [[]]) := by
      rw [splitLines_cons_nl, ih hls]
    rw [splitLines_append_line l ('\n' :: unlines ls) hl [] (ls ++ [[]]) hrest]
    simp

/-! ## min_heat_equi_pull.py: `create_restraint_files` (lines 329-393)

The three restraint texts are built by f-strings; `render` abstracts
Python's `str(...)` rendering of a float, `igr1`/`igr2` are the
comma-separated atom-group index strings.  Each definition lists the exact
lines of the corresponding f-string (the f-strings start and end with a
newline, so the first line is empty and `unlines` supplies the trailing
newline). -/

/-- Line `&rst`. -/
def ampRstLine : List Char := ['&', 'r', 's', 't']

/-- Line `iat=-1,-1,`. -/
def iatLine : List Char := ['i', 'a', 't', '=', '-', '1', ',', '-', '1', ',']

/-- `disang_equi` (min_heat_equi_pull.py:346-358): flat-bottom restraint for
equilibration, with `r1 = r2 - 1000`, `r3 = r2`, `r4 = r2 + 1000`
(lines 342-343) and both force constants equal to the pulling constant
`rk2` (lines 353-354). -/
def disangEqui (render : ℚ → List Char) (r2 rk2 : ℚ)
    (igr1 igr2 : List Char) : List Char :=
  unlines [[], ampRstLine, iatLine,
    ['r', '1', '='] ++ render (r2 - 1000) ++ [','],
    ['r', '2', '='] ++ render r2 ++ [','],
    ['r', '3', '='] ++ render r2 ++ [','],
    ['r', '4', '='] ++ render (r2 + 1000) ++ [','],
    ['r', 'k', '2', '='] ++ render rk2 ++ [','],
    ['r', 'k', '3', '='] ++ render rk2 ++ [','],
    ['i', 'g', 'r', '1', '='] ++ igr1 ++ [','],
    ['i', 'g', 'r', '2', '='] ++ igr2 ++ [','],
    ['/']]

/-- `disang_pull` (min_heat_equi_pull.py:360-369): pulling ramp restraint
with start `r2`, end `r2a` and the single force constant `rk2`. -/
def disangPull (render : ℚ → List Char) (r2 r2a rk2 : ℚ)
    (igr1 igr2 : List Char) : List Char :=
  unlines [[], ampRstLine, iatLine,
    ['r', '2', '='] ++ render r2 ++ [','],
    ['r', 'k', '2', '='] ++ render rk2 ++ [','],
    ['r', '2', 'a', '='] ++ render r2a ++ [','],
    ['i', 'g', 'r', '1', '='] ++ igr1 ++ [','],
    ['i', 'g', 'r', '2', '='] ++ igr2 ++ [','],
    ['/']]

/-- `disang_prod` (min_heat_equi_pull.py:371-383): production restraint,
structurally like the equilibration one but with the target fields `r2` and
`r3` holding the literal placeholder `dishere` and both force constants
equal to the production constant `rk3` (lines 378-379). -/
def disangProd (render : ℚ → List Char) (r2 rk3 : ℚ)
    (igr1 igr2 : List Char) : List Char :=
  unlines [[], ampRstLine, iatLine,
    ['r', '1', '='] ++ render (r2 - 1000) ++ [','],
    ['r', '2', '='] ++ dishereL ++ [','],
    ['r', '3', '='] ++ dishereL ++ [','],
    ['r', '4', '='] ++ render (r2 + 1000) ++ [','],
    ['r', 'k', '2', '='] ++ render rk3 ++ [','],
    ['r', 'k', '3', '='] ++ render rk3 ++ [','],
    ['i', 'g', 'r', '1', '='] ++ igr1 ++ [','],
    ['i', 'g', 'r', '2', '='] ++ igr2 ++ [','],
    ['/']]

/-- `create_restraint_files(r2, r2a, rk2, rk3, igr1, igr2)`
(min_heat_equi_pull.py:329-393): the triple of texts written to
`COM_dist.RST`, `COM_pull.RST` and `COM_prod.RST`. -/
def createRestraintFiles (render : ℚ → List Char) (r2 r2a rk2 rk3 : ℚ)
    (igr1 igr2 : List Char) : List Char × List Char × List Char :=
  (disangEqui render r2 rk2 igr1 igr2,
   disangPull render r2 r2a rk2 igr1 igr2,
   disangProd render r2 rk3 igr1 igr2)

/-- Placeholder resolution performed by the Window Directory Builder
(windows.py:151-155): `contents.replace("dishere", str(center))`. -/
def resolveProd (prodText v : List Char) : List Char :=
  replaceL dishereL v prodText

/-! ### Decomposition of the production text around its two placeholders -/

/-- Text of `disang_prod` before the first `dishere`. -/
def prodA (render : ℚ → List Char) (r2 : ℚ) : List Char :=
  ['\n', '&', 'r', 's', 't', '\n', 'i', 'a', 't', '=', '-', '1', ',', '-',
   '1', ',', '\n', 'r', '1', '='] ++ render (r2 - 1000) ++
  [',', '\n', 'r', '2', '=']

/-- Text of `disang_prod` between the two `dishere` occurrences. -/
def prodB : List Char := [',', '\n', 'r', '3', '=']

/-- Text of `disang_prod` after the second `dishere`. -/
def prodC (render : ℚ → List Char) (r2 rk3 : ℚ)
    (igr1 igr2 : List Char) : List Char :=
  [',', '\n', 'r', '4', '='] ++ render (r2 + 1000) ++
  [',', '\n', 'r', 'k', '2', '='] ++ render rk3 ++
  [',', '\n', 'r', 'k', '3', '='] ++ render rk3 ++
  [',', '\n', 'i', 'g', 'r', '1', '='] ++ igr1 ++
  [',', '\n', 'i', 'g', 'r', '2', '='] ++ igr2 ++
  [',', '\n', '/', '\n']

theorem disangProd_decomp (render : ℚ → List Char) (r2 rk3 : ℚ)
    (igr1 igr2 : List Char) :
    disangProd render r2 rk3 igr1 igr2 =
      prodA render r2 ++ (dishereL ++ (prodB ++
        (dishereL ++ prodC render r2 rk3 igr1 igr2))) := by
  simp [disangProd, prodA, prodB, prodC, unlines, dishereL, ampRstLine,
    iatLine, List.append_assoc]

theorem no_occ_dishere_nil (a : List Char) (ha : 'h' ∉ a) :
    ∀ i, i < a.length → ¬ dishereL <+: a.drop i := by
  have h := no_occ_dishere a [] ha (by simp)
  intro i hi
  have := h i hi
  simpa using this

theorem take3_dishere (x : List Char) :
    (dishereL ++ x).take 3 = ['d', 'i', 's'] := by
  simp [dishereL]

theorem h_not_mem_prodA (render : ℚ → List Char) (r2 : ℚ)
    (hren : ∀ q, 'h' ∉ render q) : 'h' ∉ prodA render r2 := by
  intro hmem
  simp only [prodA, List.mem_append] at hmem
  rcases hmem with (hmem | hmem) | hmem
  · revert hmem
    decide
  · exact hren _ hmem
  · revert hmem
    decide

theorem h_not_mem_prodC (render : ℚ → List Char) (r2 rk3 : ℚ)
    (igr1 igr2 : List Char) (hren : ∀ q, 'h' ∉ render q)
    (h1 : 'h' ∉ igr1) (h2 : 'h' ∉ igr2) :
    'h' ∉ prodC render r2 rk3 igr1 igr2 := by
  intro hmem
  simp only [prodC, List.mem_append] at hmem
  rcases hmem with (((((((((hm | hm) | hm) | hm) | hm) | hm) | hm) | hm)
    | hm) | hm) | hm
  all_goals first
    | (revert hm; decide)
    | exact hren _ hm
    | exact h1 hm
    | exact h2 hm

/-- The placeholder substitution on the production text, computed: every
`dishere` is replaced (Python `str.replace` replaces all occurrences, and
the substituted value contains no `h` so no new occurrence arises). -/
theorem resolveProd_eq (render : ℚ → List Char) (r2 rk3 : ℚ)
    (igr1 igr2 v : List Char) (hren : ∀ q, 'h' ∉ render q)
    (h1 : 'h' ∉ igr1) (h2 : 'h' ∉ igr2) :
    resolveProd (disangProd render r2 rk3 igr1 igr2) v =
      prodA render r2 ++ (v ++ (prodB ++
        (v ++ prodC render r2 rk3 igr1 igr2))) := by
  have hne : dishereL ≠ [] := by simp [dishereL]
  rw [resolveProd, disangProd_decomp]
  rw [replaceL_append_of_no_occ dishereL v (prodA render r2) _
    (no_occ_dishere _ _ (h_not_mem_prodA render r2 hren)
      (by rw [take3_dishere]; decide))]
  rw [replaceL_at_occ dishereL v _ hne]
  rw [replaceL_append_of_no_occ dishereL v prodB _
    (no_occ_dishere _ _ (by decide) (by rw [take3_dishere]; decide))]
  rw [replaceL_at_occ dishereL v _ hne]
  rw [replaceL_of_no_occ dishereL v _
    (no_occ_dishere_nil _ (h_not_mem_prodC render r2 rk3 igr1 igr2 hren h1 h2))]

/-- The lines of the production restraint after the placeholder has been
substituted with the rendered value `v`. -/
def resolvedProdLines (render : ℚ → List Char) (r2 rk3 : ℚ)
    (igr1 igr2 v : List Char) : List (List Char) :=
  [[], ampRstLine, iatLine,
   ['r', '1', '='] ++ render (r2 - 1000) ++ [','],
   ['r', '2', '='] ++ v ++ [','],
   ['r', '3', '='] ++ v ++ [','],
   ['r', '4', '='] ++ render (r2 + 1000) ++ [','],
   ['r', 'k', '2', '='] ++ render rk3 ++ [','],
   ['r', 'k', '3', '='] ++ render rk3 ++ [','],
   ['i', 'g', 'r', '1', '='] ++ igr1 ++ [','],
   ['i', 'g', 'r', '2', '='] ++ igr2 ++ [','],
   ['/']]

theorem resolved_eq_unlines (render : ℚ → List Char) (r2 rk3 : ℚ)
    (igr1 igr2 v : List Char) :
    prodA render r2 ++ (v ++ (prodB ++
      (v ++ prodC render r2 rk3 igr1 igr2))) =
    unlines (resolvedProdLines render r2 rk3 igr1 igr2 v) := by
  simp [prodA, prodB, prodC, unlines, resolvedProdLines, ampRstLine, iatLine,
    List.append_assoc]

theorem resolvedProdLines_no_nl (render : ℚ → List Char) (r2 rk3 : ℚ)
    (igr1 igr2 v : List Char)
    (hrenN : ∀ q, '\n' ∉ render q) (h1N : '\n' ∉ igr1) (h2N : '\n' ∉ igr2)
    (hvN : '\n' ∉ v) :
    ∀ l ∈ resolvedProdLines render r2 rk3 igr1 igr2 v, '\n' ∉ l := by
  intro l hl
  simp only [resolvedProdLines, List.mem_cons, List.not_mem_nil,
    or_false] at hl
  rcases hl with rfl | rfl | rfl | rfl | rfl | rfl | rfl | rfl | rfl | rfl |
    rfl | rfl
  all_goals first
    | decide
    | (intro hmem
       rcases List.mem_append.mp hmem with hm | hm
       · rcases List.mem_append.mp hm with hm' | hm'
         · revert hm'
           decide
         · first
             | exact hrenN _ hm'
             | exact hvN hm'
             | exact h1N hm'
             | exact h2N hm'
       · revert hm
         decide)

/-- C1: round-trip of the Production restraint.  The generated production
restraint text contains the placeholder `dishere`
(min_heat_equi_pull.py:375-376); resolving it with a rendered numeric value
`v` by string replacement (windows.py:153) leaves zero occurrences of the
placeholder, and the target-value field of the resolved file — the unique
line carrying the `r2=` marker — holds exactly the value `v`
(the line is exactly `r2=` ++ `v` ++ `,`).  The hypotheses state that the
rendered numbers and atom-group index strings are newline-free and contain
no letter `h` (true of any `str(float)` or comma-separated index list). -/
theorem production_placeholder_roundtrip (render : ℚ → List Char)
    (r2 rk3 : ℚ) (igr1 igr2 v : List Char)
    (hrenH : ∀ q, 'h' ∉ render q) (hrenN : ∀ q, '\n' ∉ render q)
    (h1H : 'h' ∉ igr1) (h1N : '\n' ∉ igr1)
    (h2H : 'h' ∉ igr2) (h2N : '\n' ∉ igr2)
    (hvH : 'h' ∉ v) (hvN : '\n' ∉ v) :
    containsSub (disangProd render r2 rk3 igr1 igr2) dishereL = true ∧
    containsSub (resolveProd (disangProd render r2 rk3 igr1 igr2) v)
      dishereL = false ∧
    fieldLines ['r', '2', '=']
        (resolveProd (disangProd render r2 rk3 igr1 igr2) v) =
      [['r', '2', '='] ++ v ++ [',']] := by
  refine ⟨?_, ?_, ?_⟩
  · rw [disangProd_decomp]
    exact containsSub_append_self _ _ _
  · rw [resolveProd_eq render r2 rk3 igr1 igr2 v hrenH h1H h2H]
    apply containsSub_eq_false _ _ 'h' (by decide)
    intro hmem
    rcases List.mem_append.mp hmem with hm | hm
    · exact h_not_mem_prodA render r2 hrenH hm
    rcases List.mem_append.mp hm with hm' | hm'
    · exact hvH hm'
    rcases List.mem_append.mp hm' with hm2 | hm2
    · revert hm2
      decide
    rcases List.mem_append.mp hm2 with hm3 | hm3
    · exact hvH hm3
    · exact h_not_mem_prodC render r2 rk3 igr1 igr2 hrenH h1H h2H hm3
  · rw [resolveProd_eq render r2 rk3 igr1 igr2 v hrenH h1H h2H,
      resolved_eq_unlines]
    rw [fieldLines, splitLines_unlines _
      (resolvedProdLines_no_nl render r2 rk3 igr1 igr2 v hrenN h1N h2N hvN)]
    simp [resolvedProdLines, List.filter_cons, List.isPrefixOf, ampRstLine,
      iatLine]

theorem production_placeholder_roundtrip_witness :
    containsSub (disangProd (fun _ => ['3', '.', '0']) 3 2 ['1'] ['2'])
      dishereL = true ∧
    containsSub (resolveProd (disangProd (fun _ => ['3', '.', '0']) 3 2
      ['1'] ['2']) ['1', '5', '.', '0']) dishereL = false ∧
    fieldLines ['r', '2', '=']
        (resolveProd (disangProd (fun _ => ['3', '.', '0']) 3 2 ['1'] ['2'])
          ['1', '5', '.', '0']) =
      [['r', '2', '='] ++ ['1', '5', '.', '0'] ++ [',']] :=
  production_placeholder_roundtrip (fun _ => ['3', '.', '0']) 3 2 ['1'] ['2']
    ['1', '5', '.', '0']
    (fun _ => (by decide : 'h' ∉ (['3', '.', '0'] : List Char)))
    (fun _ => (by decide : '\n' ∉ (['3', '.', '0'] : List Char)))
    (by decide) (by decide) (by decide) (by decide) (by decide) (by decide)

/-! ### Field structure of the three restraint texts (C4) -/

/-- A line carrying one of the bound-value fields `r1`, `r2`, `r3`, `r4`,
`r2a` of the restraint mini-language. -/
def isBoundLine (l : List Char) : Bool :=
  ['r', '1', '='].isPrefixOf l || ['r', '2', '='].isPrefixOf l ||
  ['r', '3', '='].isPrefixOf l || ['r', '4', '='].isPrefixOf l ||
  ['r', '2', 'a', '='].isPrefixOf l

/-- A line carrying one of the force-constant fields `rk2`, `rk3`. -/
def isForceLine (l : List Char) : Bool :=
  ['r', 'k', '2', '='].isPrefixOf l || ['r', 'k', '3', '='].isPrefixOf l

/-- Number of bound-value lines of a restraint text. -/
def countBound (text : List Char) : ℕ :=
  (splitLines text).countP isBoundLine

/-- Number of force-constant lines of a restraint text. -/
def countForce (text : List Char) : ℕ :=
  (splitLines text).countP isForceLine

theorem splitLines_disangEqui (render : ℚ → List Char) (r2 rk2 : ℚ)
    (igr1 igr2 : List Char) (hrenN : ∀ q, '\n' ∉ render q)
    (h1N : '\n' ∉ igr1) (h2N : '\n' ∉ igr2) :
    splitLines (disangEqui render r2 rk2 igr1 igr2) =
      [[], ampRstLine, iatLine,
       ['r', '1', '='] ++ render (r2 - 1000) ++ [','],
       ['r', '2', '='] ++ render r2 ++ [','],
       ['r', '3', '='] ++ render r2 ++ [','],
       ['r', '4', '='] ++ render (r2 + 1000) ++ [','],
       ['r', 'k', '2', '='] ++ render rk2 ++ [','],
       ['r', 'k', '3', '='] ++ render rk2 ++ [','],
       ['i', 'g', 'r', '1', '='] ++ igr1 ++ [','],
       ['i', 'g', 'r', '2', '='] ++ igr2 ++ [','],
       ['/']] ++ [[]] := by
  rw [disangEqui]
  apply splitLines_unlines
  intro l hl
  simp only [List.mem_cons, List.not_mem_nil, or_false] at hl
  rcases hl with rfl | rfl | rfl | rfl | rfl | rfl | rfl | rfl | rfl | rfl |
    rfl | rfl
  all_goals first
    | decide
    | (intro hmem
       rcases List.mem_append.mp hmem with hm | hm
       · rcases List.mem_append.mp hm with hm' | hm'
         · revert hm'
           decide
         · first
             | exact hrenN _ hm'
             | exact h1N hm'
             | exact h2N hm'
       · revert hm
         decide)

theorem splitLines_disangPull (render : ℚ → List Char) (r2 r2a rk2 : ℚ)
    (igr1 igr2 : List Char) (hrenN : ∀ q, '\n' ∉ render q)
    (h1N : '\n' ∉ igr1) (h2N : '\n' ∉ igr2) :
    splitLines (disangPull render r2 r2a rk2 igr1 igr2) =
      [[], ampRstLine, iatLine,
       ['r', '2', '='] ++ render r2 ++ [','],
       ['r', 'k', '2', '='] ++ render rk2 ++ [','],
       ['r', '2', 'a', '='] ++ render r2a ++ [','],
       ['i', 'g', 'r', '1', '='] ++ igr1 ++ [','],
       ['i', 'g', 'r', '2', '='] ++ igr2 ++ [','],
       ['/']] ++ [[]] := by
  rw [disangPull]
  apply splitLines_unlines
  intro l hl
  simp only [List.mem_cons, List.not_mem_nil, or_false] at hl
  rcases hl with rfl | rfl | rfl | rfl | rfl | rfl | rfl | rfl | rfl
  all_goals first
    | decide
    | (intro hmem
       rcases List.mem_append.mp hmem with hm | hm
       · rcases List.mem_append.mp hm with hm' | hm'
         · revert hm'
           decide
         · first
             | exact hrenN _ hm'
             | exact h1N hm'
             | exact h2N hm'
       · revert hm
         decide)

theorem splitLines_disangProd (render : ℚ → List Char) (r2 rk3 : ℚ)
    (igr1 igr2 : List Char) (hrenN : ∀ q, '\n' ∉ render q)
    (h1N : '\n' ∉ igr1) (h2N : '\n' ∉ igr2) :
    splitLines (disangProd render r2 rk3 igr1 igr2) =
      [[], ampRstLine, iatLine,
       ['r', '1', '='] ++ render (r2 - 1000) ++ [','],
       ['r', '2', '='] ++ dishereL ++ [','],
       ['r', '3', '='] ++ dishereL ++ [','],
       ['r', '4', '='] ++ render (r2 + 1000) ++ [','],
       ['r', 'k', '2', '='] ++ render rk3 ++ [','],
       ['r', 'k', '3', '='] ++ render rk3 ++ [','],
       ['i', 'g', 'r', '1', '='] ++ igr1 ++ [','],
       ['i', 'g', 'r', '2', '='] ++ igr2 ++ [','],
       ['/']] ++ [[]] := by
  rw [disangProd]
  apply splitLines_unlines
  intro l hl
  simp only [List.mem_cons, List.not_mem_nil, or_false] at hl
  rcases hl with rfl | rfl | rfl | rfl | rfl | rfl | rfl | rfl | rfl | rfl |
    rfl | rfl
  all_goals first
    | decide
    | (intro hmem
       rcases List.mem_append.mp hmem with hm | hm
       · rcases List.mem_append.mp hm with hm' | hm'
         · revert hm'
           decide
         · first
             | exact hrenN _ hm'
             | exact h1N hm'
             | exact h2N hm'
       · revert hm
         decide)

/-- C4: structure of the three restraint texts generated by
`create_restraint_files(r2, r2a, rk2, rk3, ...)` (min_heat_equi_pull.py:
329-393), where `r2` is the stage target value at generation time.
Equilibration and Production each carry exactly 4 bound-value lines
(`r1..r4`, with `r1` holding `target - 1000` and `r4` holding
`target + 1000`, lines 342-343) and exactly 2 force-constant lines that are
equal within the stage: Equilibration uses the pulling constant `rk2` for
both (lines 353-354) and Production uses the production constant `rk3` for
both (lines 378-379).  Pulling carries exactly 2 bound-value lines
(`r2`, `r2a`) and a single force-constant line `rk2`. -/
theorem restraint_file_structure (render : ℚ → List Char)
    (r2 r2a rk2 rk3 : ℚ) (igr1 igr2 : List Char)
    (hrenN : ∀ q, '\n' ∉ render q) (h1N : '\n' ∉ igr1) (h2N : '\n' ∉ igr2) :
    countBound (createRestraintFiles render r2 r2a rk2 rk3 igr1 igr2).1 = 4 ∧
    countForce (createRestraintFiles render r2 r2a rk2 rk3 igr1 igr2).1 = 2 ∧
    fieldLines ['r', '1', '=']
        (createRestraintFiles render r2 r2a rk2 rk3 igr1 igr2).1 =
      [['r', '1', '='] ++ render (r2 - 1000) ++ [',']] ∧
    fieldLines ['r', '4', '=']
        (createRestraintFiles render r2 r2a rk2 rk3 igr1 igr2).1 =
      [['r', '4', '='] ++ render (r2 + 1000) ++ [',']] ∧
    fieldLines ['r', 'k', '2', '=']
        (createRestraintFiles render r2 r2a rk2 rk3 igr1 igr2).1 =
      [['r', 'k', '2', '='] ++ render rk2 ++ [',']] ∧
    fieldLines ['r', 'k', '3', '=']
        (createRestraintFiles render r2 r2a rk2 rk3 igr1 igr2).1 =
      [['r', 'k', '3', '='] ++ render rk2 ++ [',']] ∧
    countBound (createRestraintFiles render r2 r2a rk2 rk3 igr1 igr2).2.2
      = 4 ∧
    countForce (createRestraintFiles render r2 r2a rk2 rk3 igr1 igr2).2.2
      = 2 ∧
    fieldLines ['r', '1', '=']
        (createRestraintFiles render r2 r2a rk2 rk3 igr1 igr2).2.2 =
      [['r', '1', '='] ++ render (r2 - 1000) ++ [',']] ∧
    fieldLines ['r', '4', '=']
        (createRestraintFiles render r2 r2a rk2 rk3 igr1 igr2).2.2 =
      [['r', '4', '='] ++ render (r2 + 1000) ++ [',']] ∧
    fieldLines ['r', 'k', '2', '=']
        (createRestraintFiles render r2 r2a rk2 rk3 igr1 igr2).2.2 =
      [['r', 'k', '2', '='] ++ render rk3 ++ [',']] ∧
    fieldLines ['r', 'k', '3', '=']
        (createRestraintFiles render r2 r2a rk2 rk3 igr1 igr2).2.2 =
      [['r', 'k', '3', '='] ++ render rk3 ++ [',']] ∧
    countBound (createRestraintFiles render r2 r2a rk2 rk3 igr1 igr2).2.1
      = 2 ∧
    countForce (createRestraintFiles render r2 r2a rk2 rk3 igr1 igr2).2.1
      = 1 ∧
    fieldLines ['r', '2', '=']
        (createRestraintFiles render r2 r2a rk2 rk3 igr1 igr2).2.1 =
      [['r', '2', '='] ++ render r2 ++ [',']] ∧
    fieldLines ['r', '2', 'a', '=']
        (createRestraintFiles render r2 r2a rk2 rk3 igr1 igr2).2.1 =
      [['r', '2', 'a', '='] ++ render r2a ++ [',']] ∧
    fieldLines ['r', 'k', '2', '=']
        (createRestraintFiles render r2 r2a rk2 rk3 igr1 igr2).2.1 =
      [['r', 'k', '2', '='] ++ render rk2 ++ [',']] := by
  have hequi := splitLines_disangEqui render r2 rk2 igr1 igr2 hrenN h1N h2N
  have hpull := splitLines_disangPull render r2 r2a rk2 igr1 igr2 hrenN h1N h2N
  have hprod := splitLines_disangProd render r2 rk3 igr1 igr2 hrenN h1N h2N
  refine ⟨?_, ?_, ?_, ?_, ?_, ?_, ?_, ?_, ?_, ?_, ?_, ?_, ?_, ?_, ?_, ?_, ?_⟩
  all_goals
    simp [createRestraintFiles, countBound, countForce, fieldLines, hequi,
      hpull, hprod, List.countP_append, List.countP_cons, List.filter_append,
      List.filter_cons, isBoundLine, isForceLine, List.isPrefixOf,
      ampRstLine, iatLine, dishereL]

theorem restraint_file_structure_witness :
    countBound (createRestraintFiles (fun _ => ['3', '.', '0']) 3 33 1 2
      ['1'] ['2']).1 = 4 ∧
    countForce (createRestraintFiles (fun _ => ['3', '.', '0']) 3 33 1 2
      ['1'] ['2']).1 = 2 :=
  ⟨(restraint_file_structure (fun _ => ['3', '.', '0']) 3 33 1 2 ['1'] ['2']
      (fun _ => (by decide : '\n' ∉ (['3', '.', '0'] : List Char)))
      (by decide) (by decide)).1,
   (restraint_file_structure (fun _ => ['3', '.', '0']) 3 33 1 2 ['1'] ['2']
      (fun _ => (by decide : '\n' ∉ (['3', '.', '0'] : List Char)))
      (by decide) (by decide)).2.1⟩

/-! ## us_check.py -/

/-- Python's `\s` whitespace class (for the regex `r2\s*=\s*(\d+\.\d+)`
at us_check.py:93-94). -/
def isSpaceCh (c : Char) : Bool :=
  c == ' ' || c == '\t' || c == '\n' || c == '\r' ||
  c == '\x0b' || c == '\x0c'

/-- Match the tail `\s*=\s*(\d+\.\d+)` of the regex at a fixed position,
returning the captured group `\d+\.\d+` (both digit runs maximal and
non-empty, separated by a literal dot). -/
def valueAfter (cs : List Char) : Option (List Char) :=
  match cs.dropWhile isSpaceCh with
  | '=' :: cs2 =>
    let cs3 := cs2.dropWhile isSpaceCh
    let d1 := cs3.takeWhile Char.isDigit
    if d1 = [] then none
    else
      match cs3.drop d1.length with
      | '.' :: cs4 =>
        let d2 := cs4.takeWhile Char.isDigit
        if d2 = [] then none else some (d1 ++ '.' :: d2)
      | _ => none
  | _ => none

/-- `re.search(key + r'\s*=\s*(\d+\.\d+)', content)`: scan left to right for
the first position at which the whole pattern matches, and return the
captured group (us_check.py:93-94 with key `r2` or `r3`). -/
def searchKey (k : List Char) : List Char → Option (List Char)
  | [] => none
  | c :: t =>
    if k.isPrefixOf (c :: t) then
      match valueAfter ((c :: t).drop k.length) with
      | some v => some v
      | none => searchKey k t
    else searchKey k t

/-- Numeric value of a decimal digit. -/
def digitVal (c : Char) : ℕ := c.toNat - '0'.toNat

/-- Value of a digit run read in base 10. -/
def natOfDigits (ds : List Char) : ℕ :=
  ds.foldl (fun a c => 10 * a + digitVal c) 0

/-- Python `float()` applied to a captured group `\d+\.\d+`:
integer part plus fractional part. -/
def pyFloat (cs : List Char) : ℚ :=
  let d1 := cs.takeWhile Char.isDigit
  match cs.drop d1.length with
  | '.' :: d2 => (natOfDigits d1 : ℚ) + (natOfDigits d2 : ℚ) / 10 ^ d2.length
  | _ => (natOfDigits d1 : ℚ)

/-- Target-distance extraction for one window (us_check.py:86-112), given
the restraint-file content when the file exists.  Mirrors the code: try the
`r2` pattern, then the `r3` pattern, else fall back to the estimate
`0.45 + window_num * 0.1`; the Boolean records whether the code prints the
"using estimated value" warning, i.e. whether the returned target is
flagged as an estimate (the regex-fallback path, line 104, is the only one
that prints it; the file-missing path, lines 110-112, substitutes the same
estimate with only a file-not-found warning). -/
def getTargetDistance (windowNum : ℕ) (content : Option (List Char)) :
    ℚ × Bool :=
  match content with
  | some c =>
    match searchKey ['r', '2'] c with
    | some g => (pyFloat g, false)
    | none =>
      match searchKey ['r', '3'] c with
      | some g => (pyFloat g, false)
      | none => (9 / 20 + windowNum * (1 / 10), true)
  | none => (9 / 20 + windowNum * (1 / 10), false)

/-- Minimum of a window's samples, `np.min` (us_check.py:246-247). -/
def listMin : List ℚ → ℚ
  | [] => 0
  | x :: xs => xs.foldl min x

/-- Maximum of a window's samples, `np.max` (us_check.py:246-247). -/
def listMax : List ℚ → ℚ
  | [] => 0
  | x :: xs => xs.foldl max x

/-- Outcome of the adjacent-pair overlap check. -/
inductive OverlapStatus : Type where
  | sufficient : OverlapStatus
  | insufficientData : OverlapStatus
  | noOverlap : OverlapStatus
  | lowOverlap : OverlapStatus
deriving DecidableEq

/-- Classification of one adjacent window pair by `check_window_overlap`
(us_check.py:224-266): fewer than 10 samples on either side is
"Insufficient data"; otherwise ranges that do not intersect
(`overlap_max <= overlap_min`) are "No overlap"; otherwise the pair is
flagged when the overlap ratio against either window's range is below
`min_overlap`.  `sufficient` means the pair is not appended to the
`insufficient_overlap` list. -/
def classifyPair (minOverlap : ℚ) (data1 data2 : List ℚ) : OverlapStatus :=
  if data1.length < 10 ∨ data2.length < 10 then .insufficientData
  else
    let min1 := listMin data1
    let max1 := listMax data1
    let min2 := listMin data2
    let max2 := listMax data2
    let overlapMin := max min1 min2
    let overlapMax := min max1 max2
    if overlapMax ≤ overlapMin then .noOverlap
    else
      let overlap := overlapMax - overlapMin
      if overlap / (max1 - min1) < minOverlap ∨
         overlap / (max2 - min2) < minOverlap then .lowOverlap
      else .sufficient

/-! ## check_sampling.py -/

/-- Per-window target of `analyze_restraint_effectiveness`
(check_sampling.py:25-26): the script always uses the estimate
`0.45 + window_num * 0.1` — it never reads a restraint file — and its
report carries no estimate flag (the Boolean records whether any output
marks the value as estimated; no print in check_sampling.py does). -/
def checkSamplingTarget (windowNum : ℕ) : ℚ × Bool :=
  (9 / 20 + windowNum * (1 / 10), false)

/-- C7: classification of an adjacent window pair by `check_window_overlap`
(us_check.py:224-266).  A pair with fewer than 10 samples on either side is
flagged "Insufficient data"; otherwise, if the observed `[min, max]` ranges
do not intersect (`overlap_max <= overlap_min`, i.e. intersection length
≤ 0) the pair is flagged "No overlap"; otherwise it is flagged exactly when
the intersection length divided by either window's range is below the
minimum ratio.  Concretely, ranges `[5,7]` and `[7.5,9]` give "No overlap",
while `[5,7]` and `[6.5,9]` with minimum ratio `0.1` are not flagged. -/
theorem window_overlap_classification (minOv : ℚ) (d1 d2 : List ℚ) :
    (d1.length < 10 ∨ d2.length < 10 →
      classifyPair minOv d1 d2 = OverlapStatus.insufficientData) ∧
    (¬(d1.length < 10 ∨ d2.length < 10) →
      min (listMax d1) (listMax d2) ≤ max (listMin d1) (listMin d2) →
      classifyPair minOv d1 d2 = OverlapStatus.noOverlap) ∧
    (¬(d1.length < 10 ∨ d2.length < 10) →
      ¬(min (listMax d1) (listMax d2) ≤ max (listMin d1) (listMin d2)) →
      ((min (listMax d1) (listMax d2) - max (listMin d1) (listMin d2)) /
          (listMax d1 - listMin d1) < minOv ∨
        (min (listMax d1) (listMax d2) - max (listMin d1) (listMin d2)) /
          (listMax d2 - listMin d2) < minOv →
        classifyPair minOv d1 d2 = OverlapStatus.lowOverlap) ∧
      (¬((min (listMax d1) (listMax d2) - max (listMin d1) (listMin d2)) /
          (listMax d1 - listMin d1) < minOv ∨
        (min (listMax d1) (listMax d2) - max (listMin d1) (listMin d2)) /
          (listMax d2 - listMin d2) < minOv) →
        classifyPair minOv d1 d2 = OverlapStatus.sufficient)) ∧
    classifyPair (1 / 10) [5, 7, 5, 7, 5, 7, 5, 7, 5, 7]
      [15 / 2, 9, 8, 8, 8, 8, 8, 8, 8, 8] = OverlapStatus.noOverlap ∧
    classifyPair (1 / 10) [5, 7, 5, 7, 5, 7, 5, 7, 5, 7]
      [13 / 2, 9, 7, 7, 7, 7, 7, 7, 7, 7] = OverlapStatus.sufficient := by
  refine ⟨?_, ?_, ?_,
    by norm_num [classifyPair, listMin, listMax, List.foldl, min_def, max_def],
    by norm_num [classifyPair, listMin, listMax, List.foldl, min_def, max_def]⟩
  · intro h
    simp [classifyPair, h]
  · intro hns hno
    simp [classifyPair, hns, hno]
  · intro hns hno
    constructor
    · intro hr
      simp [classifyPair, hns, hno, hr]
    · intro hr
      simp [classifyPair, hns, hno, hr]

/-- A restraint file containing `r2=15.000` and no `r3` field
(C8's first scenario). -/
def r2ExampleContent : List Char :=
  ['\n', '&', 'r', 's', 't', '\n', 'r', '2', '=', '1', '5', '.', '0', '0',
   '0', ',', '\n', '/', '\n']

/-- A restraint file containing `r3=12.500` and no `r2` value. -/
def r3ExampleContent : List Char :=
  ['\n', '&', 'r', 's', 't', '\n', 'r', '3', '=', '1', '2', '.', '5', '0',
   '0', ',', '\n', '/', '\n']

/-- A restraint file containing neither an `r2` nor an `r3` value. -/
def noTargetContent : List Char :=
  ['\n', '&', 'r', 's', 't', '\n', '/', '\n']

/-- C8: target-distance extraction (us_check.py:86-112).  A file whose text
carries the decimal value `r2=15.000` yields exactly `15.0`; when the `r2`
pattern matches, its captured value is the target; when `r2` is absent but
`r3` matches, the `r3` value is used (e.g. `r3=12.500` gives `12.5`); when
neither is present the estimated fallback `0.45 + window_num * 0.1` is used
and the "using estimated value" warning flags it as an estimate. -/
theorem target_distance_extraction :
    getTargetDistance 0 (some r2ExampleContent) = (15, false) ∧
    getTargetDistance 0 (some r3ExampleContent) = (25 / 2, false) ∧
    (∀ (n : ℕ) (c g : List Char), searchKey ['r', '2'] c = some g →
      getTargetDistance n (some c) = (pyFloat g, false)) ∧
    (∀ (n : ℕ) (c g : List Char), searchKey ['r', '2'] c = none →
      searchKey ['r', '3'] c = some g →
      getTargetDistance n (some c) = (pyFloat g, false)) ∧
    (∀ (n : ℕ) (c : List Char), searchKey ['r', '2'] c = none →
      searchKey ['r', '3'] c = none →
      getTargetDistance n (some c) = ((9 / 20 + n * (1 / 10) : ℚ), true)) ∧
    getTargetDistance 3 (some noTargetContent) = (3 / 4, true) := by
  refine ⟨?_, ?_, ?_, ?_, ?_, ?_⟩
  · have hs : searchKey ['r', '2'] r2ExampleContent =
        some ['1', '5', '.', '0', '0', '0'] := by decide
    have ht : List.takeWhile Char.isDigit ['1', '5', '.', '0', '0', '0'] =
        ['1', '5'] := by decide
    have hp : pyFloat ['1', '5', '.', '0', '0', '0'] = 15 := by
      rw [pyFloat, ht]
      norm_num [natOfDigits, digitVal, List.foldl,
        show Char.toNat '1' - Char.toNat '0' = 1 from rfl,
        show Char.toNat '5' - Char.toNat '0' = 5 from rfl,
        show Char.toNat '0' - Char.toNat '0' = 0 from rfl]
    simp [getTargetDistance, hs, hp]
  · have hs0 : searchKey ['r', '2'] r3ExampleContent = none := by decide
    have hs : searchKey ['r', '3'] r3ExampleContent =
        some ['1', '2', '.', '5', '0', '0'] := by decide
    have ht : List.takeWhile Char.isDigit ['1', '2', '.', '5', '0', '0'] =
        ['1', '2'] := by decide
    have hp : pyFloat ['1', '2', '.', '5', '0', '0'] = 25 / 2 := by
      rw [pyFloat, ht]
      norm_num [natOfDigits, digitVal, List.foldl,
        show Char.toNat '1' - Char.toNat '0' = 1 from rfl,
        show Char.toNat '2' - Char.toNat '0' = 2 from rfl,
        show Char.toNat '5' - Char.toNat '0' = 5 from rfl,
        show Char.toNat '0' - Char.toNat '0' = 0 from rfl]
    simp [getTargetDistance, hs0, hs, hp]
  · intro n c g h
    simp [getTargetDistance, h]
  · intro n c g h1 h2
    simp [getTargetDistance, h1, h2]
  · intro n c h1 h2
    simp [getTargetDistance, h1, h2]
  · have h1 : searchKey ['r', '2'] noTargetContent = none := by decide
    have h2 : searchKey ['r', '3'] noTargetContent = none := by decide
    simp [getTargetDistance, h1, h2]
    norm_num

theorem target_distance_extraction_witness :
    (searchKey ['r', '2'] noTargetContent = none ∧
      searchKey ['r', '3'] noTargetContent = none) ∧
    getTargetDistance 2 (some noTargetContent) =
      (9 / 20 + 2 * (1 / 10), true) :=
  ⟨⟨by decide, by decide⟩,
   target_distance_extraction.2.2.2.2.1 2 noTargetContent
     (by decide) (by decide)⟩

/-- C9 counterexample: `analyze_restraint_effectiveness`
(check_sampling.py:25-26) reports window 0 with the fabricated target
`0.45` (it never reads the window's restraint file) and emits no output
marking the value as an estimate — an unflagged fabricated target in a
window's report, refuting the claim that every estimated value in analysis
output is explicitly flagged. -/
theorem estimate_flag_counterexample :
    checkSamplingTarget 0 = (9 / 20, false) := by
  rw [checkSamplingTarget]
  norm_num

/-- C9 amended: in `us_check.get_target_distances` the regex-fallback
estimate is explicitly flagged by the "using estimated value" warning
(us_check.py:104), but not every analysis output flags its estimates:
`check_sampling.analyze_restraint_effectiveness` always uses the fabricated
target `0.45 + window_num * 0.1` without reading any restraint file and
reports it unflagged (check_sampling.py:25-26), and `get_target_distances`'
file-missing path substitutes the same estimate with only a generic
file-not-found warning, not an estimate flag (us_check.py:110-112). -/
theorem estimate_flagging (n : ℕ) :
    checkSamplingTarget n = ((9 / 20 + n * (1 / 10) : ℚ), false) ∧
    (∀ c : List Char, searchKey ['r', '2'] c = none →
      searchKey ['r', '3'] c = none →
      getTargetDistance n (some c) = ((9 / 20 + n * (1 / 10) : ℚ), true)) ∧
    getTargetDistance n none = ((9 / 20 + n * (1 / 10) : ℚ), false) := by
  refine ⟨rfl, ?_, rfl⟩
  intro c h1 h2
  simp [getTargetDistance, h1, h2]

theorem estimate_flagging_witness :
    (searchKey ['r', '2'] noTargetContent = none ∧
      searchKey ['r', '3'] noTargetContent = none) ∧
    getTargetDistance 1 (some noTargetContent) =
      (9 / 20 + 1 * (1 / 10), true) :=
  ⟨⟨by decide, by decide⟩,
   (estimate_flagging 1).2.1 noTargetContent (by decide) (by decide)⟩

theorem window_overlap_classification_witness :
    ([(1 : ℚ)].length < 10 ∨ [(2 : ℚ)].length < 10) ∧
    classifyPair (1 / 10) [(1 : ℚ)] [(2 : ℚ)] =
      OverlapStatus.insufficientData :=
  ⟨Or.inl (by norm_num),
   (window_overlap_classification (1 / 10) [(1 : ℚ)] [(2 : ℚ)]).1
     (Or.inl (by norm_num))⟩
